import Mathlib

/-!
Verification of the batch enrichment matching engine of `lead_gen.py`.

The embedding models Python dictionaries as association lists with
dictionary-style update semantics (a key occurs once; `dictSet` overwrites in
place, `dictGet` returns the first binding).  Contact records hold values that
are strings, booleans (the `zi_enriched` flag) or a nested company object;
API response entries are flat string-valued JSON objects, as produced by the
remote service for the fields this code reads.
-/

namespace LeadGen

/-- Values stored in a contact record: CSV/JSON strings, the boolean
`zi_enriched` flag, and the nested `company` sub-object produced by the
company-field hoisting step. -/
inductive Val where
  | str (s : String)
  | bool (b : Bool)
  | obj (fields : List (String × String))
deriving DecidableEq

/-- A contact record: a Python dict from field name to value. -/
abbrev Record := List (String × Val)

/-- An API response entry: a flat string-valued JSON object. -/
abbrev Entry := List (String × String)

/-- Dictionary lookup (`d.get(k)` / `d[k]`): the binding of the key, keys
being unique in a Python dict. -/
def dictGet : Record → String → Option Val
  | [], _ => none
  | p :: r, k => if p.1 == k then some p.2 else dictGet r k

/-- Dictionary lookup on a string-valued entry. -/
def dictGetS : Entry → String → Option String
  | [], _ => none
  | p :: e, k => if p.1 == k then some p.2 else dictGetS e k

/-- Dictionary assignment `d[k] = v`: overwrite in place if the key exists,
otherwise append the new binding at the end (Python dict insertion order). -/
def dictSet : Record → String → Val → Record
  | [], k, v => [(k, v)]
  | p :: r, k, v => if p.1 == k then (k, v) :: r else p :: dictSet r k v

/-- Dictionary assignment on a string-valued mapping. -/
def dictSetS : List (String × String) → String → String → List (String × String)
  | [], k, v => [(k, v)]
  | p :: m, k, v => if p.1 == k then (k, v) :: m else p :: dictSetS m k v

/-- Python `{**a, **b}`: keys of `a` in order (values of `b` winning on
collision), then the keys of `b` not in `a`, in their order. -/
def dictMerge (a b : Record) : Record :=
  a.map (fun p => match dictGet b p.1 with | some v => (p.1, v) | none => p) ++
  b.filter (fun p => (dictGet a p.1).isNone)

/-- Whitespace characters recognized by Python's `str.strip()`. -/
def isPySpace (c : Char) : Bool :=
  c == ' ' || c == '\t' || c == '\n' || c == '\r' || c == '\x0b' || c == '\x0c'

/-- `str.strip()` on a character list: drop whitespace from both ends. -/
def pyStripL (cs : List Char) : List Char :=
  ((cs.dropWhile isPySpace).reverse.dropWhile isPySpace).reverse

/-- Python `str.strip()`. -/
def pyStrip (s : String) : String := String.mk (pyStripL s.data)

/-- Python `str.lower()` (ASCII case folding, as used by the matching keys). -/
def pyLower (s : String) : String := String.mk (s.data.map Char.toLower)

/-- `.strip().lower()` normalization used by the matching policy. -/
def norm (s : String) : String := pyLower (pyStrip s)

/-- Python `str.replace(pat, rep)`: replace non-overlapping occurrences left to
right.  The fuel argument (initially the string length) makes the recursion
structural; patterns used here are non-empty, so fuel never runs out. -/
def replaceGo (pat rep : List Char) : Nat → List Char → List Char
  | 0, cs => cs
  | _ + 1, [] => []
  | fuel + 1, c :: rest =>
    if pat.isPrefixOf (c :: rest) then
      rep ++ replaceGo pat rep fuel ((c :: rest).drop pat.length)
    else c :: replaceGo pat rep fuel rest

/-- Python `str.replace` on strings. -/
def strReplace (s pat rep : String) : String :=
  String.mk (replaceGo pat.data rep.data s.data.length s.data)

/-- The ad hoc camel-to-snake conversion
`''.join(['_'+c.lower() if c.isupper() else c for c in key]).lstrip('_')`. -/
def camelToSnake (s : String) : String :=
  String.mk (((s.data.map
    (fun c => if c.isUpper then ['_', c.toLower] else [c])).flatten).dropWhile
      (fun c => c == '_'))

/-- The fixed set of company-related keys hoisted out of a response entry. -/
def companyKeys : List String :=
  ["companyName", "companyDomain", "companyId", "industry", "companyRevenue",
   "companyEmployees", "companyLocation"]

/-- `snake_key.replace("company_", "")` applied to a hoisted company key. -/
def companyFieldName (k : String) : String :=
  strReplace (camelToSnake k) "company_" ""

/-- Characters allowed in a URL scheme, per `urllib.parse`. -/
def isSchemeChar (c : Char) : Bool := c.isAlphanum || c == '+' || c == '-' || c == '.'

/-- Remove a leading `scheme:` prefix from a URL, if present. -/
def stripScheme (cs : List Char) : List Char :=
  let pre := cs.takeWhile isSchemeChar
  match cs.drop pre.length with
  | ':' :: rest =>
    match pre with
    | c :: _ => if c.isAlpha then rest else cs
    | [] => cs
  | _ => cs

/-- `urlparse(url).netloc`: the authority component after `//`, ending at the
first `/`, `?` or `#`; empty when the URL has no `//` part. -/
def pyNetloc (url : String) : String :=
  match stripScheme url.data with
  | '/' :: '/' :: rest =>
    String.mk (rest.takeWhile (fun c => !(c == '/' || c == '?' || c == '#')))
  | _ => ""

/-- Domain derivation for `companyDomain`: parse the URL's netloc and strip a
leading `www.` label. -/
def extractDomain (website : String) : String :=
  let d := pyNetloc website
  if ("www.".data).isPrefixOf d.data then String.mk (d.data.drop 4) else d

/-- One optional payload field: included exactly when the local field is
present on the contact.  Contact fields submitted to the API originate from
CSV rows and are strings. -/
def optField (c : Record) (localKey extKey : String) : Entry :=
  match dictGet c localKey with
  | some (Val.str s) => [(extKey, s)]
  | _ => []

/-- The `companyDomain` payload field, derived from `company_website`. -/
def domainField (c : Record) : Entry :=
  match dictGet c "company_website" with
  | some (Val.str s) => [("companyDomain", extractDomain s)]
  | _ => []

/-- The per-contact payload construction of `enrich_contact_batch`
(local field names to the external naming convention). -/
def to_external (c : Record) : Entry :=
  optField c "first_name" "firstName" ++
  optField c "last_name" "lastName" ++
  optField c "email" "email" ++
  optField c "title" "jobTitle" ++
  optField c "company_name" "companyName" ++
  domainField c

/-- The standardization applied to a matched response entry: hoist the fixed
company keys into a nested `company` object, then convert the remaining keys
to snake case. -/
def from_external (e : Entry) : Record :=
  let companyInfo : List (String × String) :=
    companyKeys.foldl (fun acc k =>
      match dictGetS e k with
      | some v => dictSetS acc (companyFieldName k) v
      | none => acc) []
  let remaining : Entry := e.filter (fun p => !(companyKeys.contains p.1))
  let base : Record := remaining.map (fun p => (p.1, Val.str p.2))
  let withCompany : Record :=
    if companyInfo.isEmpty then base else dictSet base "company" (Val.obj companyInfo)
  withCompany.foldl (fun std p =>
    if p.1 == "company" then dictSet std p.1 p.2
    else dictSet std (camelToSnake p.1) p.2) []

/-- `(d.get(k) or '')` on a response entry. -/
def entryField (e : Entry) (k : String) : String := (dictGetS e k).getD ""

/-- Normalized (first, last) key of a response entry. -/
def entryNameKey (e : Entry) : String × String :=
  (norm (entryField e "firstName"), norm (entryField e "lastName"))

/-- Normalized email of a response entry. -/
def entryEmail (e : Entry) : String := norm (entryField e "email")

/-- `(contact.get(k) or '')` on a contact record. -/
def recField (c : Record) (k : String) : String :=
  match dictGet c k with | some (Val.str s) => s | _ => ""

/-- Normalized (first, last) key of a contact. -/
def nameKeyOf (c : Record) : String × String :=
  (norm (recField c "first_name"), norm (recField c "last_name"))

/-- Normalized email of a contact. -/
def emailOf (c : Record) : String := norm (recField c "email")

/-- `results_by_name[key]`: the response entries sharing a normalized name
key, in response order. -/
def nameMatches (results : List Entry) (key : String × String) : List Entry :=
  results.filter (fun r => entryNameKey r == key)

/-- `results_by_email[em]`: the email index maps a non-empty normalized email
to the last response entry carrying it (last write wins). -/
def emailIndexLookup (results : List Entry) (em : String) : Option Entry :=
  (results.filter (fun r => entryEmail r != "" && entryEmail r == em)).getLast?

/-- The name tier of the matching policy: a unique name match is used as is;
several name matches are disambiguated by the contact's (non-empty) email. -/
def nameSelect (results : List Entry) (c : Record) : Option Entry :=
  if (nameMatches results (nameKeyOf c)).length == 1 then
    (nameMatches results (nameKeyOf c)).head?
  else if (nameMatches results (nameKeyOf c)).length > 1 && emailOf c != "" then
    (nameMatches results (nameKeyOf c)).find? (fun r => entryEmail r == emailOf c)
  else none

/-- Python falsiness of the `enriched` variable: `None` or the empty dict. -/
def notTruthy (e : Option Entry) : Bool :=
  match e with | none => true | some l => l.isEmpty

/-- The two-tier matching policy for one contact: the name tier, then (when
the chosen value is still falsy, mirroring `if not enriched`) the email-index
fallback. -/
def selectEntry (results : List Entry) (c : Record) : Option Entry :=
  if notTruthy (nameSelect results c) && emailOf c != "" then
    match emailIndexLookup results (emailOf c) with
    | some e => some e
    | none => nameSelect results c
  else nameSelect results c

/-- The in-place flagging `contact["zi_enriched"] = False`. -/
def flagFalse (c : Record) : Record := dictSet c "zi_enriched" (Val.bool false)

/-- Merge of a matched entry onto the original contact:
`{**contact, **standardized}` then `merged["zi_enriched"] = True`. -/
def mergeEntry (c : Record) (e : Entry) : Record :=
  dictSet (dictMerge c (from_external e)) "zi_enriched" (Val.bool true)

/-- Per-contact reconciliation: the final `if enriched:` truthiness test, the
merge on a (non-empty) match, and the unmatched flagging. -/
def reconcileOne (results : List Entry) (c : Record) : Record :=
  match selectEntry results c with
  | some e => if e.isEmpty then flagFalse c else mergeEntry c e
  | none => flagFalse c

/-- The reconciliation loop over the whole batch (`for contact in contacts`),
one output per input contact in input order. -/
def reconcile (contacts : List Record) (results : List Entry) : List Record :=
  contacts.map (reconcileOne results)

/-- State of the caller's input records after the call: a matched contact is
left untouched (the merge builds a fresh dict), an unmatched contact has been
mutated by `contact["zi_enriched"] = False`. -/
def postStateOf (results : List Entry) (contacts : List Record) : List Record :=
  contacts.map (fun c =>
    match selectEntry results c with
    | some e => if e.isEmpty then flagFalse c else c
    | none => flagFalse c)

/-- In-place flagging of every contact, as done on the API-error and
transport-exception paths. -/
def flagAll (contacts : List Record) : List Record := contacts.map flagFalse

/-- The observable outcome of the remote bulk call: an HTTP response with a
status and decoded results, or a transport-level exception. -/
inductive ApiOutcome where
  | resp (status : Nat) (results : List Entry)
  | exn (msg : String)

/-- Result of `enrich_contact_batch`: the returned list and the state of the
caller's input records after the call. -/
structure EnrichOut where
  ret : List Record
  post : List Record
deriving DecidableEq

/-- `enrich_contact_batch`, with the authentication outcome and the remote
call's outcome made explicit.  Every code path returns normally (`Except.ok`);
the function never propagates a failure signal to its caller. -/
def enrich (authOk : Bool) (api : ApiOutcome) (contacts : List Record) :
    Except String EnrichOut :=
  if !authOk then .ok ⟨contacts, contacts⟩
  else if contacts.all (fun c => (to_external c).isEmpty) then .ok ⟨contacts, contacts⟩
  else
    match api with
    | .resp status results =>
      if status == 200 then .ok ⟨reconcile contacts results, postStateOf results contacts⟩
      else .ok ⟨flagAll contacts, flagAll contacts⟩
    | .exn _ => .ok ⟨flagAll contacts, flagAll contacts⟩

/-- The list returned by `enrich_contact_batch`. -/
def retOf (r : Except String EnrichOut) : List Record :=
  match r with | .ok o => o.ret | .error _ => []

/-- The post-call state of the input records. -/
def postOf (r : Except String EnrichOut) : List Record :=
  match r with | .ok o => o.post | .error _ => []

/-! ## Orchestrators

`LeadGenerator.process_contact_list` extracts `Name`, `Email`, `Contact Phone`
from each enriched record with a per-record `try`; the CLI's `process_file`
runs the same extraction inside a per-batch retry loop whose success
accumulator and error list live outside the loop. -/

/-- An output row of the success sequence. -/
structure Row where
  name : String
  email : String
  phone : String
deriving DecidableEq

/-- `a or b` on strings (Python truthiness). -/
def orStr (a b : String) : String := if a == "" then b else a

/-- Per-record field extraction and validation of the orchestrators: a record
lacking all of name, email and phone raises `ValueError`. -/
def extractRow (enr : Record) : Except String Row :=
  let first := orStr (recField enr "first_name") (recField enr "First Name")
  let last := orStr (recField enr "last_name") (recField enr "Last Name")
  let name := pyStrip (first ++ " " ++ last)
  let email := orStr (recField enr "email") (recField enr "Email")
  let phone := orStr (recField enr "phone")
    (orStr (recField enr "DirectPhone") (recField enr "Contact Phone"))
  if name == "" && email == "" && phone == "" then
    .error "No name, email, or phone found after enrichment."
  else .ok ⟨name, email, phone⟩

/-- One attempt of `process_file`'s extraction loop over
`zip(batch, enriched_batch)`: rows appended before the first failing record,
and the failure's message if one record raised. -/
def processRows : List (Record × Record) → List Row × Option String
  | [] => ([], none)
  | (_, enr) :: rest =>
    match extractRow enr with
    | .ok r => ((processRows rest).1.cons r, (processRows rest).2)
    | .error m => ([], some m)

/-- The per-batch retry loop of `process_file`.  `attempts` lists the enriched
batch produced by the requester on each attempt (`retry_limit + 1` entries);
the accumulator `acc` persists across attempts exactly as the mutable
`processed_contacts` list does.  Returns the accumulated success rows, the
error records contributed by this batch, and the number of attempts made. -/
def batchRetryGo (batch : List Record) :
    List (List Record) → List Row → Nat → List Row × List (Record × String) × Nat
  | [], acc, n => (acc, [], n)
  | [a], acc, n =>
    (match (processRows (batch.zip a)).2 with
     | none => (acc ++ (processRows (batch.zip a)).1, [], n + 1)
     | some m => (acc ++ (processRows (batch.zip a)).1,
         batch.map (fun c => (c, "Batch enrichment error: " ++ m)), n + 1))
  | a :: b :: rest, acc, n =>
    (match (processRows (batch.zip a)).2 with
     | none => (acc ++ (processRows (batch.zip a)).1, [], n + 1)
     | some _ => batchRetryGo batch (b :: rest) (acc ++ (processRows (batch.zip a)).1) (n + 1))

/-- Entry point of the per-batch retry loop. -/
def batchRetry (batch : List Record) (attempts : List (List Record)) :
    List Row × List (Record × String) × Nat :=
  batchRetryGo batch attempts [] 0

/-- `LeadGenerator.process_contact_list`'s extraction over one batch: the
`try` is per record, so a failing record is recorded as an error and its
siblings continue. -/
def processContactListBatch : List (Record × Record) → List Row × List (Record × String)
  | [] => ([], [])
  | (orig, enr) :: rest =>
    (match extractRow enr with
     | .ok r => ((processContactListBatch rest).1.cons r, (processContactListBatch rest).2)
     | .error m => ((processContactListBatch rest).1, (orig, m) :: (processContactListBatch rest).2))

/-! ## Contact qualifier: the company-size criterion -/

/-- Digits with Python's underscore grouping rule (`int` accepts single
underscores between digits). -/
def parseDigitsAux : List Char → Nat → Option Nat
  | [], acc => some acc
  | c :: rest, acc =>
    if c.isDigit then parseDigitsAux rest (acc * 10 + (c.toNat - 48))
    else if c == '_' then
      match rest with
      | d :: _ => if d.isDigit then parseDigitsAux rest acc else none
      | [] => none
    else none

/-- A non-empty digit string (with optional single grouping underscores),
rejecting a leading underscore. -/
def parseDigits : List Char → Option Nat
  | [] => none
  | c :: rest => if c.isDigit then parseDigitsAux (c :: rest) 0 else none

/-- Python `int(s)` on the strings reaching it here: strip whitespace, an
optional sign, then digits. -/
def pyInt (s : String) : Option Int :=
  match pyStripL s.data with
  | '+' :: rest => (parseDigits rest).map Int.ofNat
  | '-' :: rest => (parseDigits rest).map (fun n => -(Int.ofNat n))
  | cs => (parseDigits cs).map Int.ofNat

/-- `company_size_str.split("-")[0]`: the part before the first hyphen. -/
def beforeDash (s : String) : String :=
  String.mk (s.data.takeWhile (fun c => !(c == '-')))

/-- The company-size parsing of `qualify_contact`: a hyphenated range uses the
lower bound, a trailing `+` is stripped, commas are thousands separators. -/
def parseCompanySize (s : String) : Option Int :=
  if s.data.contains '-' then
    pyInt (pyStrip (strReplace (strReplace (beforeDash s) "," "") "+" ""))
  else if s.data.contains '+' then
    pyInt (pyStrip (strReplace (strReplace s "," "") "+" ""))
  else
    pyInt (pyStrip (strReplace s "," ""))

/-- The reason recorded by the company-size criterion. -/
inductive SizeReason where
  | withinRange (n : Int)
  | outsideRange (n : Int)
  | unparsable (s : String)
deriving DecidableEq

/-- Contribution of the company-size block once a truthy size string is in
hand: `max_score` gains 1 before the parse; the score gains 1 exactly when the
parsed value lies within the configured range; a parse failure is caught and
recorded as a reason. -/
def companySizeBlock (minSize maxSize : Int) (s : String) : Nat × Nat × SizeReason :=
  match parseCompanySize s with
  | some n =>
    if minSize ≤ n ∧ n ≤ maxSize then (1, 1, .withinRange n)
    else (0, 1, .outsideRange n)
  | none => (0, 1, .unparsable s)

/-- Resolution of the size string: top-level `company_size` if truthy, else
the nested company object's `employees` field. -/
def resolveCompanySize (c : Record) : Option String :=
  let top : Option String :=
    match dictGet c "company_size" with
    | some (Val.str s) => if s == "" then none else some s
    | _ => none
  match top with
  | some s => some s
  | none =>
    match dictGet c "company" with
    | some (Val.obj m) =>
      match dictGetS m "employees" with
      | some s => if s == "" then none else some s
      | none => none
    | _ => none

/-- The full company-size portion of `qualify_contact`: with no truthy size
string the criterion contributes to neither score nor max_score and records no
reason. -/
def qualifySizePortion (minSize maxSize : Int) (c : Record) :
    Nat × Nat × Option SizeReason :=
  match resolveCompanySize c with
  | some s =>
    let o := companySizeBlock minSize maxSize s
    (o.1, o.2.1, some o.2.2)
  | none => (0, 0, none)

/-! ## Concrete fixtures used by witnesses and counterexamples -/

/-- A contact known only by first name. -/
def janeC : Record := [("first_name", Val.str "Jane")]

/-- A contact carrying only an email address. -/
def demoContact : Record := [("email", Val.str "a@x.com")]

/-- A response entry whose email collides with `demoContact`'s. -/
def demoBob : Entry := [("firstName", "Bob"), ("lastName", "B"), ("email", "a@x.com")]

/-- A response set whose only entry sharing `demoContact`'s empty name key is
the empty entry. -/
def demoResults : List Entry := [[], demoBob]

/-- An entirely empty contact record. -/
def emptyR : Record := []

/-- A record holding only a title. -/
def rTitle : Record := [("title", Val.str "CTO")]

/-- A record holding only a phone number. -/
def rPhone : Record := [("phone", Val.str "555")]

/-- A contact known only by first name. -/
def annC : Record := [("first_name", Val.str "Ann")]

/-- A contact known only by first name. -/
def bobC : Record := [("first_name", Val.str "Bob")]

/-- The scenario contact of spec section 8: first Jane Doe. -/
def jane1 : Record :=
  [("first_name", Val.str "Jane"), ("last_name", Val.str "Doe"),
   ("email", Val.str "jane@x.com")]

/-- The scenario response entry matching `jane1`. -/
def entry1 : Entry :=
  [("firstName", "Jane"), ("lastName", "Doe"), ("email", "jane@x.com"),
   ("jobTitle", "CTO")]

/-- The per-record `ValueError` message. -/
def noFieldsMsg : String := "No name, email, or phone found after enrichment."

/-- The per-batch error message recorded after retries are exhausted. -/
def batchErrMsg : String := "Batch enrichment error: " ++ noFieldsMsg

/-! ## Helper lemmas -/

/-- The head delivered by `head?` is a member of the list. -/
theorem head?_mem {α : Type} {l : List α} {a : α} (h : l.head? = some a) : a ∈ l := by
  cases l <;> simp_all

/-- The element delivered by `getLast?` is a member of the list. -/
theorem getLast?_mem {α : Type} : ∀ {l : List α} {a : α}, l.getLast? = some a → a ∈ l
  | [], _, h => by simp at h
  | [x], a, h => by simp_all
  | x :: y :: t, a, h => by
    rw [List.getLast?_cons_cons] at h
    exact List.mem_cons_of_mem x (getLast?_mem h)

/-- A name-tier match is drawn from the response set. -/
theorem nameSelect_mem {results : List Entry} {c : Record} {e : Entry}
    (h : nameSelect results c = some e) : e ∈ results := by
  unfold nameSelect at h
  split at h
  · exact List.mem_of_mem_filter (head?_mem h)
  · split at h
    · exact List.mem_of_mem_filter (List.mem_of_find?_eq_some h)
    · simp at h

/-- An email-index match is drawn from the response set. -/
theorem emailIndexLookup_mem {results : List Entry} {em : String} {e : Entry}
    (h : emailIndexLookup results em = some e) : e ∈ results :=
  List.mem_of_mem_filter (getLast?_mem h)

/-- Any entry selected by the matching policy is drawn from the response set. -/
theorem selectEntry_mem {results : List Entry} {c : Record} {e : Entry}
    (h : selectEntry results c = some e) : e ∈ results := by
  unfold selectEntry at h
  split at h
  · cases hl : emailIndexLookup results (emailOf c) with
    | none => rw [hl] at h; exact nameSelect_mem h
    | some x => rw [hl] at h; cases h; exact emailIndexLookup_mem hl
  · exact nameSelect_mem h

/-- Setting a key makes it present with the assigned value. -/
theorem dictGet_dictSet_self (k : String) (v : Val) :
    ∀ r : Record, dictGet (dictSet r k v) k = some v
  | [] => by simp [dictSet, dictGet]
  | p :: r => by
    by_cases hp : p.1 == k
    · simp [dictSet, dictGet, hp]
    · have hp' : (p.1 == k) = false := by simpa using hp
      simp [dictSet, dictGet, hp', dictGet_dictSet_self k v r]

/-- Setting one key leaves every other key's binding unchanged. -/
theorem dictGet_dictSet_ne (k : String) (v : Val) (k' : String)
    (hne : k' ≠ k) : ∀ r : Record, dictGet (dictSet r k v) k' = dictGet r k'
  | [] => by
    have hkk' : (k == k') = false := by simpa using fun h => hne h.symm
    simp [dictSet, dictGet, hkk']
  | p :: r => by
    have hkk' : (k == k') = false := by simpa using fun h => hne h.symm
    by_cases hp : p.1 == k
    · have hpk : p.1 = k := by simpa using hp
      simp [dictSet, dictGet, hp, hpk, hkk']
    · have hp' : (p.1 == k) = false := by simpa using hp
      simp [dictSet, dictGet, hp', dictGet_dictSet_ne k v k' hne r]

/-- Indexing a mapped list below its length. -/
theorem getD_map_of_lt {α β : Type} (f : α → β) (d' : α) (d : β) :
    ∀ (l : List α) (i : Nat), i < l.length → (l.map f).getD i d = f (l.getD i d')
  | a :: l, 0, _ => rfl
  | a :: l, i + 1, h => by
    simpa using getD_map_of_lt f d' d l i (by simpa using h)

/-! ## Claim theorems -/

/-- Claim C1: for every input batch of N contacts and every response set, the
reconciliation step returns exactly N records, one per input contact in input
order; the i-th output is either the merge of the i-th contact with a matched
response entry flagged `zi_enriched = true`, or the i-th contact with its
original fields unchanged flagged `zi_enriched = false`. -/
theorem reconcile_totality_order (contacts : List Record) (results : List Entry) :
    (reconcile contacts results).length = contacts.length ∧
    ∀ i, i < contacts.length →
      ((dictGet ((reconcile contacts results).getD i []) "zi_enriched" =
          some (Val.bool true) ∧
        ∃ e ∈ results,
          (reconcile contacts results).getD i [] = mergeEntry (contacts.getD i []) e) ∨
      (dictGet ((reconcile contacts results).getD i []) "zi_enriched" =
          some (Val.bool false) ∧
        ∀ k, k ≠ "zi_enriched" →
          dictGet ((reconcile contacts results).getD i []) k =
            dictGet (contacts.getD i []) k)) := by
  refine ⟨by simp [reconcile], fun i hi => ?_⟩
  have hmap : (reconcile contacts results).getD i [] =
      reconcileOne results (contacts.getD i []) :=
    getD_map_of_lt _ [] [] contacts i hi
  rw [hmap]
  rcases hsel : selectEntry results (contacts.getD i []) with _ | e
  · right
    simp only [reconcileOne, hsel, flagFalse]
    exact ⟨dictGet_dictSet_self _ _ _, fun k hk => dictGet_dictSet_ne _ _ _ hk _⟩
  · by_cases hemp : e.isEmpty
    · right
      simp only [reconcileOne, hsel, hemp, if_true, flagFalse]
      exact ⟨dictGet_dictSet_self _ _ _, fun k hk => dictGet_dictSet_ne _ _ _ hk _⟩
    · left
      have hemp' : e.isEmpty = false := by simpa using hemp
      simp only [reconcileOne, hsel, hemp', if_false]
      refine ⟨?_, e, selectEntry_mem hsel, rfl⟩
      simp only [mergeEntry]
      exact dictGet_dictSet_self _ _ _

/-- Witness for C1 at a concrete matched batch: the scenario contact of spec
section 8. -/
theorem reconcile_totality_order_witness :
    (dictGet ((reconcile [jane1] [entry1]).getD 0 []) "zi_enriched" =
        some (Val.bool true) ∧
      ∃ e ∈ [entry1],
        (reconcile [jane1] [entry1]).getD 0 [] = mergeEntry ([jane1].getD 0 []) e) ∨
    (dictGet ((reconcile [jane1] [entry1]).getD 0 []) "zi_enriched" =
        some (Val.bool false) ∧
      ∀ k, k ≠ "zi_enriched" →
        dictGet ((reconcile [jane1] [entry1]).getD 0 []) k =
          dictGet ([jane1].getD 0 []) k) :=
  (reconcile_totality_order [jane1] [entry1]).2 0 (by decide)

/-- Counterexample to claim C6 as stated: `demoContact`'s normalized name key
is shared by exactly one response entry of `demoResults` (the empty entry),
yet the Reconciler does not match the contact to that entry — the empty dict
is falsy, so the email fallback fires and selects a different entry. -/
theorem name_unique_match_counterexample :
    nameMatches demoResults (nameKeyOf demoContact) = [[]] ∧
    selectEntry demoResults demoContact = some demoBob ∧
    demoBob ≠ ([] : Entry) :=
  ⟨rfl, rfl, by decide⟩

/-- Claim C6 (amended): if exactly one response entry shares the contact's
normalized (first, last) key and that entry is a non-empty mapping, the
Reconciler matches the contact to it regardless of email presence — even when
the contact's email is absent or indexes a different entry. -/
theorem name_unique_match (results : List Entry) (c : Record) (e : Entry)
    (h1 : nameMatches results (nameKeyOf c) = [e]) (h2 : e ≠ []) :
    selectEntry results c = some e ∧ reconcileOne results c = mergeEntry c e := by
  have hemp : e.isEmpty = false := by
    cases e
    · exact absurd rfl h2
    · rfl
  have hsel1 : nameSelect results c = some e := by
    unfold nameSelect
    rw [h1]
    simp
  have hsel : selectEntry results c = some e := by
    unfold selectEntry
    rw [hsel1]
    simp [notTruthy, hemp]
  refine ⟨hsel, ?_⟩
  simp [reconcileOne, hsel, hemp]

/-- Witness for C6 at a concrete input: the unique name match is selected even
though the contact also carries an email. -/
theorem name_unique_match_witness :
    selectEntry [entry1] jane1 = some entry1 ∧
    reconcileOne [entry1] jane1 = mergeEntry jane1 entry1 :=
  name_unique_match [entry1] jane1 entry1 (by decide) (by decide)

/-- A contact field either contributes no payload entry (it is not present
with a string value), or yields exactly its value under the external key. -/
theorem optField_cases (c : Record) (lk ek : String) :
    (optField c lk ek = [] ∧ ∀ u, dictGet c lk ≠ some (Val.str u)) ∨
    ∃ t, dictGet c lk = some (Val.str t) ∧ optField c lk ek = [(ek, t)] := by
  unfold optField
  rcases h : dictGet c lk with _ | v
  · exact Or.inl ⟨rfl, by simp⟩
  · cases v with
    | str t => exact Or.inr ⟨t, rfl, rfl⟩
    | bool b => exact Or.inl ⟨rfl, by simp⟩
    | obj o => exact Or.inl ⟨rfl, by simp⟩

/-- Counterexample to claim C2 as stated: `rTitle` and `rPhone` contain no
company-prefixed field, yet the round trip does not restore them — `title`
comes back under the key `job_title`, and `phone` is not transmitted at all. -/
theorem roundtrip_counterexample :
    dictGet rTitle "title" = some (Val.str "CTO") ∧
    dictGet rTitle "company_name" = none ∧
    dictGet rTitle "company_website" = none ∧
    dictGet (from_external (to_external rTitle)) "title" = none ∧
    dictGet rPhone "phone" = some (Val.str "555") ∧
    from_external (to_external rPhone) = [] :=
  ⟨rfl, rfl, rfl, rfl, rfl, rfl⟩

set_option maxHeartbeats 3200000 in
/-- Claim C2 (amended): for a record with no company-prefixed fields, the
round trip `from_external(to_external(r))` restores `first_name`, `last_name`
and `email` with their original key names and values; `title` comes back
renamed to `job_title` (value preserved), and `phone` — never included in the
outbound payload — is absent from the result, as is `title`. -/
theorem roundtrip_amended (r : Record) (s : String)
    (hcn : dictGet r "company_name" = none)
    (hcw : dictGet r "company_website" = none) :
    (dictGet r "first_name" = some (Val.str s) →
      dictGet (from_external (to_external r)) "first_name" = some (Val.str s)) ∧
    (dictGet r "last_name" = some (Val.str s) →
      dictGet (from_external (to_external r)) "last_name" = some (Val.str s)) ∧
    (dictGet r "email" = some (Val.str s) →
      dictGet (from_external (to_external r)) "email" = some (Val.str s)) ∧
    (dictGet r "title" = some (Val.str s) →
      dictGet (from_external (to_external r)) "job_title" = some (Val.str s)) ∧
    dictGet (from_external (to_external r)) "title" = none ∧
    dictGet (from_external (to_external r)) "phone" = none := by
  have e5 : optField r "company_name" "companyName" = [] := by
    unfold optField; rw [hcn]
  have e6 : domainField r = [] := by
    unfold domainField; rw [hcw]
  rcases optField_cases r "first_name" "firstName" with ⟨e1, n1⟩ | ⟨t1, g1, e1⟩ <;>
  rcases optField_cases r "last_name" "lastName" with ⟨e2, n2⟩ | ⟨t2, g2, e2⟩ <;>
  rcases optField_cases r "email" "email" with ⟨e3, n3⟩ | ⟨t3, g3, e3⟩ <;>
  rcases optField_cases r "title" "jobTitle" with ⟨e4, n4⟩ | ⟨t4, g4, e4⟩ <;>
  simp only [to_external, e1, e2, e3, e4, e5, e6] <;>
  refine ⟨?_, ?_, ?_, ?_, ?_, ?_⟩ <;>
    first
    | rfl
    | (intro hs;
       first
       | exact absurd hs (n1 s)
       | exact absurd hs (n2 s)
       | exact absurd hs (n3 s)
       | exact absurd hs (n4 s)
       | (rw [g1] at hs; injection hs with h; injection h with h; subst h; rfl)
       | (rw [g2] at hs; injection hs with h; injection h with h; subst h; rfl)
       | (rw [g3] at hs; injection hs with h; injection h with h; subst h; rfl)
       | (rw [g4] at hs; injection hs with h; injection h with h; subst h; rfl))

/-- Witness for C2 (amended) at concrete records. -/
theorem roundtrip_amended_witness :
    dictGet (from_external (to_external jane1)) "first_name" =
      some (Val.str "Jane") ∧
    dictGet (from_external (to_external rTitle)) "job_title" =
      some (Val.str "CTO") :=
  ⟨(roundtrip_amended jane1 "Jane" rfl rfl).1 rfl,
   (roundtrip_amended rTitle "CTO" rfl rfl).2.2.2.1 rfl⟩

/-- The retry loop stops at the first successful attempt: with the first `k`
attempts failing and attempt `k` succeeding, the loop makes `k + 1` attempts
and contributes no errors. -/
theorem batchRetryGo_success (batch : List Record) :
    ∀ (attempts : List (List Record)) (k : Nat) (acc : List Row) (n : Nat),
      k < attempts.length →
      (∀ i, i < k → (processRows (batch.zip (attempts.getD i []))).2.isSome) →
      (processRows (batch.zip (attempts.getD k []))).2 = none →
      (batchRetryGo batch attempts acc n).2.1 = [] ∧
      (batchRetryGo batch attempts acc n).2.2 = n + (k + 1)
  | [], k, _, _, hk, _, _ => absurd hk (by simp)
  | [a], k, acc, n, hk, _, hsucc => by
    have hk0 : k = 0 := by simpa using hk
    subst hk0
    have ha : (([a] : List (List Record)).getD 0 []) = a := rfl
    rw [ha] at hsucc
    simp [batchRetryGo, hsucc]
  | a :: b :: rest, 0, acc, n, _, _, hsucc => by
    have ha : (((a :: b :: rest) : List (List Record)).getD 0 []) = a := rfl
    rw [ha] at hsucc
    simp [batchRetryGo, hsucc]
  | a :: b :: rest, k + 1, acc, n, hk, hfail, hsucc => by
    have h0 := hfail 0 (by omega)
    have ha : (((a :: b :: rest) : List (List Record)).getD 0 []) = a := rfl
    rw [ha] at h0
    obtain ⟨m, hm⟩ := Option.isSome_iff_exists.mp h0
    have hrec := batchRetryGo_success batch (b :: rest) k
      (acc ++ (processRows (batch.zip a)).1) (n + 1)
      (by simpa using hk) (fun i hi => hfail (i + 1) (by omega)) hsucc
    simp only [batchRetryGo, hm]
    exact ⟨hrec.1, by rw [hrec.2]; omega⟩

/-- When every attempt fails, the loop pairs every contact of the batch with
the last failure's message and makes one attempt per available try. -/
theorem batchRetryGo_allfail (batch : List Record) (m : String) :
    ∀ (attempts : List (List Record)) (acc : List Row) (n : Nat),
      attempts ≠ [] →
      (∀ i, i < attempts.length →
        (processRows (batch.zip (attempts.getD i []))).2.isSome) →
      (processRows (batch.zip (attempts.getD (attempts.length - 1) []))).2 = some m →
      (batchRetryGo batch attempts acc n).2.1 =
        batch.map (fun c => (c, "Batch enrichment error: " ++ m)) ∧
      (batchRetryGo batch attempts acc n).2.2 = n + attempts.length
  | [], _, _, hne, _, _ => absurd rfl hne
  | [a], acc, n, _, _, hlast => by
    have ha : (([a] : List (List Record)).getD 0 []) = a := rfl
    rw [show (([a] : List (List Record)).length - 1) = 0 from rfl, ha] at hlast
    simp [batchRetryGo, hlast]
  | a :: b :: rest, acc, n, _, hfail, hlast => by
    have h0 := hfail 0 (by simp)
    have ha : (((a :: b :: rest) : List (List Record)).getD 0 []) = a := rfl
    rw [ha] at h0
    obtain ⟨m0, hm0⟩ := Option.isSome_iff_exists.mp h0
    have hrec := batchRetryGo_allfail batch m (b :: rest)
      (acc ++ (processRows (batch.zip a)).1) (n + 1) (by simp)
      (fun i hi => hfail (i + 1)
        (by simp only [List.length_cons] at hi ⊢; omega)) hlast
    simp only [batchRetryGo, hm0]
    exact ⟨hrec.1, by rw [hrec.2]; simp only [List.length_cons]; omega⟩

/-- Claim C3: with `retry_limit + 1` available attempts per batch, if the
first `k ≤ retry_limit` attempts fail and attempt `k` succeeds, the batch is
attempted exactly `k + 1` times and contributes no error records; if every
attempt fails, every contact of the batch appears in the error sequence
paired with the last failure's message. -/
theorem batch_retry_attempts (batch : List Record) (attempts : List (List Record))
    (retries k : Nat) (hlen : attempts.length = retries + 1) :
    (k ≤ retries →
      (∀ i, i < k → (processRows (batch.zip (attempts.getD i []))).2.isSome) →
      (processRows (batch.zip (attempts.getD k []))).2 = none →
      (batchRetry batch attempts).2.2 = k + 1 ∧
      (batchRetry batch attempts).2.1 = []) ∧
    (∀ m,
      (∀ i, i ≤ retries → (processRows (batch.zip (attempts.getD i []))).2.isSome) →
      (processRows (batch.zip (attempts.getD retries []))).2 = some m →
      (batchRetry batch attempts).2.1 =
        batch.map (fun c => (c, "Batch enrichment error: " ++ m)) ∧
      (batchRetry batch attempts).2.2 = retries + 1) := by
  constructor
  · intro hk hfail hsucc
    have h := batchRetryGo_success batch attempts k [] 0 (by omega) hfail hsucc
    exact ⟨by simpa [batchRetry] using h.2, by simpa [batchRetry] using h.1⟩
  · intro m hfail hlast
    have hne : attempts ≠ [] := by
      intro h
      rw [h] at hlen
      simp at hlen
    have hsub : attempts.length - 1 = retries := by omega
    have h := batchRetryGo_allfail batch m attempts [] 0 hne
      (fun i hi => hfail i (by omega)) (by rw [hsub]; exact hlast)
    exact ⟨by simpa [batchRetry] using h.1,
      by have := h.2; rw [hlen] at this; simpa [batchRetry] using this⟩

/-- Witness for C3: one failing attempt followed by a succeeding one, with
`retry_limit = 1` — the loop stops after the second attempt with no errors. -/
theorem batch_retry_attempts_witness :
    (batchRetry [janeC] [[emptyR], [janeC]]).2.2 = 2 ∧
    (batchRetry [janeC] [[emptyR], [janeC]]).2.1 = [] :=
  (batch_retry_attempts [janeC] [[emptyR], [janeC]] 1 1 rfl).1 (by decide)
    (fun i hi => by
      have h0 : i = 0 := by omega
      subst h0
      decide)
    (by decide)

/-- Counterexample to claim C4 as stated: on a non-success status (500) and on
a transport exception, `enrich_contact_batch` does not yield a failure signal;
it returns normally with the input contacts flagged `zi_enriched = false`. -/
theorem request_failure_counterexample :
    (500 ≠ 200) ∧
    enrich true (.resp 500 []) [janeC] =
      .ok ⟨[janeC ++ [("zi_enriched", Val.bool false)]],
           [janeC ++ [("zi_enriched", Val.bool false)]]⟩ ∧
    enrich true (.exn "connection error") [janeC] =
      .ok ⟨[janeC ++ [("zi_enriched", Val.bool false)]],
           [janeC ++ [("zi_enriched", Val.bool false)]]⟩ :=
  ⟨by decide, rfl, rfl⟩

/-- Claim C4 (amended): a non-success response status or a transport failure
does not raise `RequestFailure`; `enrich_contact_batch` catches the condition
and returns, as a normal result, the input contacts each flagged
`zi_enriched = false`, so the calling orchestrator's retry machinery is not
triggered by these conditions. -/
theorem request_failure_swallowed (contacts : List Record) (status : Nat)
    (results : List Entry) (msg : String)
    (hne : contacts.all (fun c => (to_external c).isEmpty) = false)
    (hst : status ≠ 200) :
    enrich true (.resp status results) contacts =
      .ok ⟨flagAll contacts, flagAll contacts⟩ ∧
    enrich true (.exn msg) contacts =
      .ok ⟨flagAll contacts, flagAll contacts⟩ := by
  have h200 : (status == 200) = false := beq_eq_false_iff_ne.mpr hst
  constructor
  · simp [enrich, hne, h200]
  · simp [enrich, hne]

/-- Witness for C4 (amended) at a concrete batch. -/
theorem request_failure_swallowed_witness :
    enrich true (.resp 500 []) [janeC] =
      .ok ⟨flagAll [janeC], flagAll [janeC]⟩ ∧
    enrich true (.exn "boom") [janeC] =
      .ok ⟨flagAll [janeC], flagAll [janeC]⟩ :=
  request_failure_swallowed [janeC] 500 [] "boom" (by decide) (by decide)

/-- Claim C5: in the CLI orchestrator the per-record validation failure is NOT
contained to the failing record.  At the failing input — batch `[annC, emptyR]`
with `retry_limit = 1`, where `annC` extracts fine and `emptyR` lacks all of
name, email and phone — the whole batch is retried (2 attempts), the sibling
row appears twice in the success sequence, and BOTH contacts are demoted to
error records.  `LeadGenerator.process_contact_list`, whose per-record `try`
matches the claim, demotes only the failing record and keeps the sibling
exactly once. -/
theorem validation_demotion_eval :
    batchRetry [annC, emptyR]
        [retOf (enrich true (.resp 200 []) [annC, emptyR]),
         retOf (enrich true (.resp 200 []) [annC, emptyR])] =
      ([⟨"Ann", "", ""⟩, ⟨"Ann", "", ""⟩],
       [(annC, batchErrMsg), (emptyR, batchErrMsg)], 2) ∧
    processContactListBatch
        ([annC, emptyR].zip (retOf (enrich true (.resp 200 []) [annC, emptyR]))) =
      ([⟨"Ann", "", ""⟩], [(emptyR, noFieldsMsg)]) :=
  ⟨rfl, rfl⟩

/-- Counterexample to claim C7 as stated: after a call in which `janeC` goes
unmatched, the input record has been mutated — it gained the key
`zi_enriched`, which it did not hold before the call. -/
theorem no_mutation_counterexample :
    dictGet janeC "zi_enriched" = none ∧
    postOf (enrich true (.resp 200 []) [janeC]) =
      [janeC ++ [("zi_enriched", Val.bool false)]] ∧
    postOf (enrich true (.resp 200 []) [janeC]) ≠ [janeC] :=
  ⟨rfl, rfl, by decide⟩

/-- Claim C7 (amended): on every path, each input record is after the call
either exactly as before (matched contacts — the merge builds a fresh dict)
or mutated only by the in-place addition `zi_enriched = false` (unmatched
contacts and the API-error and exception paths); no pre-existing field is
ever changed. -/
theorem mutation_amended (authOk : Bool) (api : ApiOutcome) (contacts : List Record) :
    List.Forall₂ (fun c p => p = c ∨ p = dictSet c "zi_enriched" (Val.bool false))
      contacts (postOf (enrich authOk api contacts)) := by
  have hsame : ∀ l : List Record,
      List.Forall₂
        (fun c p => p = c ∨ p = dictSet c "zi_enriched" (Val.bool false)) l l :=
    fun l => List.forall₂_same.mpr (fun x _ => Or.inl rfl)
  have hflag : ∀ l : List Record,
      List.Forall₂
        (fun c p => p = c ∨ p = dictSet c "zi_enriched" (Val.bool false)) l
        (flagAll l) :=
    fun l => List.forall₂_map_right_iff.mpr
      (List.forall₂_same.mpr (fun x _ => Or.inr rfl))
  cases authOk with
  | false => exact hsame contacts
  | true =>
    by_cases hall : contacts.all (fun c => (to_external c).isEmpty) = true
    · unfold enrich
      rw [if_neg (by simp), if_pos hall]
      exact hsame contacts
    · cases api with
      | exn m =>
        unfold enrich
        rw [if_neg (by simp), if_neg hall]
        exact hflag contacts
      | resp status results =>
        by_cases h200 : (status == 200) = true
        · unfold enrich
          rw [if_neg (by simp), if_neg hall]
          simp only [h200, if_true, postOf, postStateOf]
          refine List.forall₂_map_right_iff.mpr
            (List.forall₂_same.mpr (fun x _ => ?_))
          rcases hsel : selectEntry results x with _ | e
          · simp [hsel, flagFalse]
          · by_cases hemp : e.isEmpty
            · simp [hsel, hemp, flagFalse]
            · simp [hsel, hemp]
        · have h200' : (status == 200) = false := by simpa using h200
          unfold enrich
          rw [if_neg (by simp), if_neg hall]
          simp only [h200', if_false]
          exact hflag contacts

/-- Counterexample to claim C8 as stated: with the channel unable to establish
credentials, `enrich_contact_batch` returns the contacts unchanged as a
normal result (no `RequestFailure`), and the orchestrator goes on to emit the
contact as a success row — the run is not aborted. -/
theorem auth_failure_counterexample :
    enrich false (.resp 200 []) [janeC] = .ok ⟨[janeC], [janeC]⟩ ∧
    batchRetry [janeC] [retOf (enrich false (.resp 200 []) [janeC])] =
      ([⟨"Jane", "", ""⟩], [], 1) :=
  ⟨rfl, rfl⟩

/-- Claim C8 (amended): an authentication failure does not abort the run and
raises no failure signal: `enrich_contact_batch` returns the input contacts
unchanged (not even flagged) whatever the channel would have answered, the
orchestrator keeps processing, and a contact with extractable fields is
emitted as an (unenriched) success record. -/
theorem auth_failure_amended (api : ApiOutcome) (contacts : List Record) :
    enrich false api contacts = .ok ⟨contacts, contacts⟩ ∧
    batchRetry [janeC] [retOf (enrich false api [janeC])] =
      ([⟨"Jane", "", ""⟩], [], 1) := by
  constructor
  · rfl
  · rfl

/-- Claim C9: the company-size criterion always adds 1 to `max_score` once a
size string is present; a parsable size adds 1 to the score exactly when the
parsed lower bound lies within the configured range, and an unparsable size
scores 0 and records a reason.  The parser accepts plain integers,
comma-separated thousands, a trailing plus, and hyphenated ranges (lower
bound); in particular `"1,200+"` parses to 1200 and, with range [50, 1000],
scores 0 with an out-of-range reason. -/
theorem company_size_criterion (minSize maxSize : Int) (s : String) :
    ((companySizeBlock minSize maxSize s).2.1 = 1) ∧
    (∀ n, parseCompanySize s = some n →
      (((companySizeBlock minSize maxSize s).1 = 1) ↔
        (minSize ≤ n ∧ n ≤ maxSize))) ∧
    (parseCompanySize s = none →
      (companySizeBlock minSize maxSize s).1 = 0 ∧
      (companySizeBlock minSize maxSize s).2.2 = SizeReason.unparsable s) ∧
    parseCompanySize "250" = some 250 ∧
    parseCompanySize "1,250" = some 1250 ∧
    parseCompanySize "500+" = some 500 ∧
    parseCompanySize "100-500" = some 100 ∧
    parseCompanySize "1,200+" = some 1200 ∧
    qualifySizePortion 50 1000 [("company_size", Val.str "1,200+")] =
      (0, 1, some (SizeReason.outsideRange 1200)) := by
  refine ⟨?_, ?_, ?_, by decide, by decide, by decide, by decide, by decide,
    by decide⟩
  · rcases h : parseCompanySize s with _ | n
    · simp [companySizeBlock, h]
    · by_cases hr : minSize ≤ n ∧ n ≤ maxSize
      · simp [companySizeBlock, h, hr]
      · simp [companySizeBlock, h, hr]
  · intro n hn
    by_cases hr : minSize ≤ n ∧ n ≤ maxSize
    · simp [companySizeBlock, hn, hr]
    · simp [companySizeBlock, hn, hr]
  · intro hn
    simp [companySizeBlock, hn]

/-- Witness for C9: the in-range test at the spec's scenario values, and an
unparsable size string. -/
theorem company_size_criterion_witness :
    ((companySizeBlock 50 1000 "1,200+").2.1 = 1) ∧
    (((companySizeBlock 50 1000 "1,200+").1 = 1) ↔
      ((50 : Int) ≤ 1200 ∧ (1200 : Int) ≤ 1000)) ∧
    ((companySizeBlock 50 1000 "abc").1 = 0 ∧
      (companySizeBlock 50 1000 "abc").2.2 = SizeReason.unparsable "abc") :=
  ⟨(company_size_criterion 50 1000 "1,200+").1,
   (company_size_criterion 50 1000 "1,200+").2.1 1200 (by decide),
   (company_size_criterion 50 1000 "abc").2.2.1 (by decide)⟩

/-- Claim C10: in the CLI orchestrator the success accumulator persists across
batch retry attempts — with `bobC` extracting fine, `emptyR` failing
validation, and `retry_limit = 1`, Bob's row is appended once per attempt and
appears twice in the final success sequence. -/
theorem accumulator_duplication :
    (batchRetry [bobC, emptyR]
        [retOf (enrich true (.resp 200 []) [bobC, emptyR]),
         retOf (enrich true (.resp 200 []) [bobC, emptyR])]).1 =
      [⟨"Bob", "", ""⟩, ⟨"Bob", "", ""⟩] ∧
    ((batchRetry [bobC, emptyR]
        [retOf (enrich true (.resp 200 []) [bobC, emptyR]),
         retOf (enrich true (.resp 200 []) [bobC, emptyR])]).1.count
      ⟨"Bob", "", ""⟩) = 2 :=
  ⟨rfl, by decide⟩

end LeadGen
